import Mathlib

/-!
Verification of the rustify library: a shallow embedding of the `Result` /
`Option` containers and the `wrapInResult` adapter, with theorems checking the
specification's claims against the embedded code.

The embedding models JavaScript runtime values as the inductive `JSVal`
(numbers, strings, booleans, `undefined`, `null`, plain objects, arrays,
`Error` instances, and functions).  Object identity — what `===` compares for
objects — is modelled by a numeric `id` carried on every heap-allocated value.
Methods that throw are embedded as `Except String` (the thrown `Error`'s
message) or `Except JSVal` (an arbitrary thrown value).  The external
stringification collaborator (`toString` from the missing utils module) is kept
abstract as a function parameter, exactly as the messages in the contracts
mention it abstractly.
-/

/-- Model of a JavaScript runtime value.  Heap values (`obj`, `arr`, `errObj`,
`fn`) carry an identity tag standing for their reference identity. -/
inductive JSVal : Type where
  | num (n : Int)
  | str (s : String)
  | boolv (b : Bool)
  | undefv
  | nullv
  | obj (id : Nat) (fields : List (String × JSVal))
  | arr (id : Nat) (elems : List JSVal)
  | errObj (id : Nat) (message : String)
  | fn (id : Nat)

/-- Result of the JavaScript `typeof` operator on a modelled value. -/
def JSVal.typeofStr : JSVal → String
  | .num _ => "number"
  | .str _ => "string"
  | .boolv _ => "boolean"
  | .undefv => "undefined"
  | .nullv => "object"
  | .obj _ _ => "object"
  | .arr _ _ => "object"
  | .errObj _ _ => "object"
  | .fn _ => "function"

/-- Whether the value is the JavaScript `null` value. -/
def JSVal.isNullVal : JSVal → Bool
  | .nullv => true
  | _ => false

/-- Whether `Symbol.iterator in value` holds for an object value: among the
modelled heap values only arrays carry the iteration protocol (plain objects
and Error instances have no `Symbol.iterator` property). -/
def JSVal.hasSymbolIterator : JSVal → Bool
  | .arr _ _ => true
  | _ => false

/-- Elements produced by delegating to the value's own `Symbol.iterator`
(meaningful for arrays; empty for values without the protocol). -/
def JSVal.iterElems : JSVal → List JSVal
  | .arr _ es => es
  | _ => []

/-- Whether `value instanceof Error` holds. -/
def JSVal.isErrorInstance : JSVal → Bool
  | .errObj _ _ => true
  | _ => false

/-- The `message` property of an Error instance (identity elsewhere; only used
behind an `isErrorInstance` guard, mirroring `error.message`). -/
def JSVal.errMessage : JSVal → JSVal
  | .errObj _ m => .str m
  | v => v

/-- Reference identity of the root of a value: `some id` for heap values,
`none` for primitives (which have no reference identity). -/
def JSVal.rootId : JSVal → Option Nat
  | .obj i _ => some i
  | .arr i _ => some i
  | .errObj i _ => some i
  | .fn i => some i
  | _ => none

/-- Whether the root identity of the value (if any) lies below `f`; used to
express that `f` is a fresh identity not aliasing the value. -/
def JSVal.rootIdBelow (v : JSVal) (f : Nat) : Bool :=
  match v.rootId with
  | some i => decide (i < f)
  | none => true

mutual
/-- Structural copy of a value in which every heap identity is replaced by
`f`: the copy of a heap value is reference-distinct from any value whose
identities avoid `f`, while `refresh 0` erases identities altogether, so
`refresh 0 a = refresh 0 b` states that `a` and `b` are structurally equal. -/
def refresh (f : Nat) : JSVal → JSVal
  | .obj _ fields => .obj f (refreshFields f fields)
  | .arr _ elems => .arr f (refreshList f elems)
  | .errObj _ m => .errObj f m
  | .fn _ => .fn f
  | v => v

/-- Pointwise `refresh` over array elements. -/
def refreshList (f : Nat) : List JSVal → List JSVal
  | [] => []
  | v :: vs => refresh f v :: refreshList f vs

/-- Pointwise `refresh` over object fields. -/
def refreshFields (f : Nat) : List (String × JSVal) → List (String × JSVal)
  | [] => []
  | (k, v) :: kvs => (k, refresh f v) :: refreshFields f kvs
end

mutual
/-- Whether the deep-copy collaborator can copy the value: functions (live
callbacks) cannot be structurally cloned, at any depth. -/
def cloneable : JSVal → Bool
  | .obj _ fields => cloneableFields fields
  | .arr _ elems => cloneableList elems
  | .fn _ => false
  | _ => true

/-- Pointwise `cloneable` over array elements. -/
def cloneableList : List JSVal → Bool
  | [] => true
  | v :: vs => cloneable v && cloneableList vs

/-- Pointwise `cloneable` over object fields. -/
def cloneableFields : List (String × JSVal) → Bool
  | [] => true
  | (_, v) :: kvs => cloneable v && cloneableFields kvs
end

/-- Modelled from the spec: the deep-copy collaborator (`structuredClone`,
a platform builtin not part of the repository source).  Per the spec it
returns a structurally independent copy — here, the value with all heap
identities replaced by the fresh identity `f` — or signals inability to copy
(for values containing live callbacks), modelled as `none`. -/
def sclone (f : Nat) (v : JSVal) : Option JSVal :=
  if cloneable v then some (refresh f v) else none

/-- Embedding of the `Option` type of option.ts: `Some(value)` or the shared
absent marker `None`. -/
inductive Opt (α : Type) : Type where
  | Some (v : α)
  | None

/-- Embedding of `SomeImpl.expect` / `SomeNone.expect` from option.ts: `Some`
returns the value; `None` throws an `Error` whose message is exactly the
supplied diagnostic string. -/
def Opt.expect {α : Type} (o : Opt α) (message : String) : Except String α :=
  match o with
  | .Some v => .ok v
  | .None => .error message

/-- Embedding of `SomeImpl.unwrap` / `SomeNone.unwrap` from option.ts: `Some`
returns the value; `None` throws an `Error` with the fixed message
"Tried to unwrap None". -/
def Opt.unwrap {α : Type} (o : Opt α) : Except String α :=
  match o with
  | .Some v => .ok v
  | .None => .error "Tried to unwrap None"

/-- Embedding of `SomeImpl.unwrapOr` / `SomeNone.unwrapOr` from option.ts. -/
def Opt.unwrapOr {α : Type} (o : Opt α) (defaultValue : α) : α :=
  match o with
  | .Some v => v
  | .None => defaultValue

/-- Model of the TypeScript union `T | undefined`, the return shape of the
later revision's `ok()` / `err()`. -/
inductive UOr (α : Type) : Type where
  | val (a : α)
  | undefv

/-- Embedding of the `Result` data model shared by both revisions: `Ok` holds
the success value; `Err` holds the error value together with the origin trace
captured at construction time (`#stack`). -/
inductive Res (α ε : Type) : Type where
  | Ok (v : α)
  | Err (e : ε) (stack : String)

/-- Embedding of `OkImpl.isOk` / `ErrImpl.isOk` (src/src/result.ts). -/
def Res.isOk {α ε : Type} : Res α ε → Bool
  | .Ok _ => true
  | .Err _ _ => false

/-- Embedding of `OkImpl.isOkAnd` / `ErrImpl.isOkAnd` (src/src/result.ts). -/
def Res.isOkAnd {α ε : Type} (r : Res α ε) (p : α → Bool) : Bool :=
  match r with
  | .Ok v => p v
  | .Err _ _ => false

/-- Embedding of `OkImpl.isErr` / `ErrImpl.isErr` (src/src/result.ts). -/
def Res.isErr {α ε : Type} : Res α ε → Bool
  | .Ok _ => false
  | .Err _ _ => true

/-- Embedding of `OkImpl.isErrAnd` / `ErrImpl.isErrAnd` (src/src/result.ts). -/
def Res.isErrAnd {α ε : Type} (r : Res α ε) (p : ε → Bool) : Bool :=
  match r with
  | .Ok _ => false
  | .Err e _ => p e

/-- Embedding of the later revision's `ok()` (src/src/result.ts): the raw
value for `Ok`, `undefined` for `Err`. -/
def Res.ok {α ε : Type} : Res α ε → UOr α
  | .Ok v => .val v
  | .Err _ _ => .undefv

/-- Embedding of the later revision's `err()` (src/src/result.ts): `undefined`
for `Ok`, the raw error for `Err`. -/
def Res.err {α ε : Type} : Res α ε → UOr ε
  | .Ok _ => .undefv
  | .Err e _ => .val e

/-- Embedding of the earlier revision's `ok()` (src/result.ts): `Some(value)`
for `Ok`, the shared `None` for `Err`. -/
def Res.okEarlier {α ε : Type} : Res α ε → Opt α
  | .Ok v => .Some v
  | .Err _ _ => .None

/-- Embedding of the earlier revision's `err()` (src/result.ts): `None` for
`Ok`, `Some(error)` for `Err`. -/
def Res.errEarlier {α ε : Type} : Res α ε → Opt ε
  | .Ok _ => .None
  | .Err e _ => .Some e

/-- Embedding of `OkImpl.map` / `ErrImpl.map` (src/src/result.ts): `Ok`
builds a new `Ok` of `fn(value)`; `Err` returns `this` unchanged. -/
def Res.map {α β ε : Type} (r : Res α ε) (f : α → β) : Res β ε :=
  match r with
  | .Ok v => .Ok (f v)
  | .Err e st => .Err e st

/-- Embedding of `OkImpl.mapErr` / `ErrImpl.mapErr` (src/src/result.ts):
`Ok` returns `this` unchanged; `Err` builds a new `Err` of `fn(error)` through
the factory, which captures a new origin trace `trNew` at that point. -/
def Res.mapErr {α ε η : Type} (r : Res α ε) (f : ε → η) (trNew : String) : Res α η :=
  match r with
  | .Ok v => .Ok v
  | .Err e _ => .Err (f e) trNew

/-- Embedding of `OkImpl.expect` / `ErrImpl.expect` (src/src/result.ts):
`Ok` returns the value; `Err` throws an `Error` whose message is the supplied
prefix, the stringified error, and the captured origin trace.  The external
stringifier is the parameter `ts`. -/
def Res.expect {α ε : Type} (r : Res α ε) (message : String) (ts : ε → String) :
    Except String α :=
  match r with
  | .Ok v => .ok v
  | .Err e st => .error (message ++ ": " ++ ts e ++ "\n" ++ st)

/-- Embedding of `OkImpl.unwrap` / `ErrImpl.unwrap` (src/src/result.ts):
`Ok` returns the value; `Err` throws with the fixed prefix
"Tried to unwrap Error: " followed by the stringified error and the trace. -/
def Res.unwrap {α ε : Type} (r : Res α ε) (ts : ε → String) : Except String α :=
  match r with
  | .Ok v => .ok v
  | .Err e st => .error ("Tried to unwrap Error: " ++ ts e ++ "\n" ++ st)

/-- Embedding of `OkImpl.expectErr` / `ErrImpl.expectErr` (src/src/result.ts):
`Err` returns the error; `Ok` throws with the supplied prefix and the
stringified value — no trace is appended on the `Ok` side. -/
def Res.expectErr {α ε : Type} (r : Res α ε) (message : String) (ts : α → String) :
    Except String ε :=
  match r with
  | .Ok v => .error (message ++ ": " ++ ts v)
  | .Err e _ => .ok e

/-- Embedding of `OkImpl.unwrapErr` / `ErrImpl.unwrapErr` (src/src/result.ts):
`Err` returns the error; `Ok` throws with the fixed prefix
"Tried to unwrap Ok value: " and the stringified value, without a trace. -/
def Res.unwrapErr {α ε : Type} (r : Res α ε) (ts : α → String) : Except String ε :=
  match r with
  | .Ok v => .error ("Tried to unwrap Ok value: " ++ ts v)
  | .Err e _ => .ok e

/-- Embedding of `OkImpl.and` / `ErrImpl.and` (src/src/result.ts): `Ok`
returns the other result as-is; `Err` returns `this`. -/
def Res.and {α β ε : Type} (r : Res α ε) (other : Res β ε) : Res β ε :=
  match r with
  | .Ok _ => other
  | .Err e st => .Err e st

/-- Embedding of `OkImpl.andThen` / `ErrImpl.andThen` (src/src/result.ts):
`Ok` returns `fn(value)`; `Err` returns `this` without touching `fn`. -/
def Res.andThen {α β ε : Type} (r : Res α ε) (f : α → Res β ε) : Res β ε :=
  match r with
  | .Ok v => f v
  | .Err e st => .Err e st

/-- Embedding of `OkImpl.cloned` / `ErrImpl.cloned` (src/src/result.ts), with
the deep-copy collaborator modelled by `sclone` at fresh identity `f`.  `Ok`
tries the deep copy and wraps it in a new `Ok`; if the copy fails it warns
(the returned flag records that `console.warn` ran) and falls back to the
original container.  `Err` returns `this`; the error is never cloned. -/
def Res.cloned {ε : Type} (r : Res JSVal ε) (f : Nat) : Res JSVal ε × Bool :=
  match r with
  | .Ok v =>
      match sclone f v with
      | some w => (.Ok w, false)
      | none => (.Ok v, true)
  | .Err e st => (.Err e st, false)

/-- Embedding of `OkImpl[Symbol.iterator]` / `ErrImpl[Symbol.iterator]`
(src/src/result.ts), as the finite list of values the iterator yields: `Ok`
delegates to the value's own iterator when
`typeof value === "object" && value !== null && Symbol.iterator in value`,
and otherwise yields nothing; `Err` always yields nothing.  The embedding is a
pure function, so every iteration of the same container restarts afresh. -/
def Res.iterate {ε : Type} : Res JSVal ε → List JSVal
  | .Ok v =>
      if v.typeofStr == "object" && !v.isNullVal && v.hasSymbolIterator then
        v.iterElems
      else
        []
  | .Err _ _ => []

/-- Embedding of `wrapInResult` (src/src/result.ts), applied to its arguments.
`fn` models the wrapped function on the spread argument list (throwing
modelled by `Except.error`); `errorTransform` is the optional transformer,
itself allowed to throw; `tr` is the origin trace the `Err` factory captures
inside the catch block.  The outer `Except` is the behavior of the returned
closure: `Except.error` means a throw escapes the closure uncaught. -/
def wrapInResult (fn : List JSVal → Except JSVal JSVal)
    (errorTransform : Option (JSVal → Except JSVal JSVal))
    (tr : String) (args : List JSVal) : Except JSVal (Res JSVal JSVal) :=
  match fn args with
  | .ok value => .ok (.Ok value)
  | .error caught =>
      match errorTransform with
      | some et =>
          match et caught with
          | .ok transformed => .ok (.Err transformed tr)
          | .error thrown => .error thrown
      | none =>
          .ok (.Err (if caught.isErrorInstance then caught.errMessage else caught) tr)

/-- Claim-side predicate, following the words of the iteration contract: a
JavaScript value is iterable when it implements the iteration protocol —
arrays do, and so do primitive strings. -/
def isIterableJS : JSVal → Bool
  | .arr _ _ => true
  | .str _ => true
  | _ => false

/-- Claim-side function, following the words of the iteration contract: the
elements an iterable value yields — an array yields its elements, a string
yields its characters as one-character strings. -/
def elemsOfIterable : JSVal → List JSVal
  | .arr _ es => es
  | .str s => s.data.map (fun c => JSVal.str (String.mk [c]))
  | _ => []

/-- Claim-side function, following the words of the adapter contract: the
message field carried by a caught failure, when it carries one — an Error
instance carries its message, and a plain object carries the value of its
"message" property. -/
def messageFieldOf : JSVal → Option JSVal
  | .errObj _ m => some (.str m)
  | .obj _ fields =>
      match fields.find? (fun kv => kv.1 == "message") with
      | some kv => some kv.2
      | none => none
  | _ => none

theorem refreshList_comp (f g : Nat) (es : List JSVal)
    (h : ∀ v ∈ es, refresh f (refresh g v) = refresh f v) :
    refreshList f (refreshList g es) = refreshList f es := by
  induction es with
  | nil => rfl
  | cons v vs ih =>
      simp only [refreshList]
      rw [h v (List.mem_cons_self v vs), ih (fun w hw => h w (List.mem_cons_of_mem v hw))]

theorem refreshFields_comp (f g : Nat) (kvs : List (String × JSVal))
    (h : ∀ kv ∈ kvs, refresh f (refresh g kv.2) = refresh f kv.2) :
    refreshFields f (refreshFields g kvs) = refreshFields f kvs := by
  induction kvs with
  | nil => rfl
  | cons kv rest ih =>
      obtain ⟨k, v⟩ := kv
      simp only [refreshFields]
      rw [h (k, v) (List.mem_cons_self _ rest), ih (fun w hw => h w (List.mem_cons_of_mem _ hw))]

theorem refresh_refresh (f g : Nat) (v : JSVal) : refresh f (refresh g v) = refresh f v := by
  cases v with
  | obj id fields =>
      simp only [refresh]
      exact congrArg (JSVal.obj f)
        (refreshFields_comp f g fields (fun kv hkv => refresh_refresh f g kv.2))
  | arr id elems =>
      simp only [refresh]
      exact congrArg (JSVal.arr f)
        (refreshList_comp f g elems (fun w hw => refresh_refresh f g w))
  | num n => rfl
  | str s => rfl
  | boolv b => rfl
  | undefv => rfl
  | nullv => rfl
  | errObj id m => rfl
  | fn id => rfl
termination_by sizeOf v
decreasing_by
  · have h1 := List.sizeOf_lt_of_mem hkv
    cases kv with
    | mk a b => simp only [Prod.mk.sizeOf_spec] at h1 ⊢; simp; omega
  · have h1 := List.sizeOf_lt_of_mem hw
    simp
    omega

/-- C1: for every Result r, `expect`/`unwrap` return the wrapped value on `Ok`
and throw exactly on `Err`, with message `{m}: {stringify(error)}\n{trace}`
for `expect` and fixed prefix `Tried to unwrap Error: {stringify(error)}` with
the trace appended for `unwrap`; symmetrically `expectErr`/`unwrapErr` return
the error on `Err` and throw exactly on `Ok`, with message
`{m}: {stringify(value)}` for `expectErr` and fixed prefix
`Tried to unwrap Ok value: {stringify(value)}` for `unwrapErr`, with no trace
appended on the `Ok` side. -/
theorem c1_unwrap_family (α ε : Type) (v : α) (e : ε) (st m : String)
    (tsE : ε → String) (tsV : α → String) :
    (Res.Ok v : Res α ε).expect m tsE = Except.ok v ∧
    (Res.Ok v : Res α ε).unwrap tsE = Except.ok v ∧
    (Res.Err e st : Res α ε).expect m tsE
      = Except.error (m ++ ": " ++ tsE e ++ "\n" ++ st) ∧
    (Res.Err e st : Res α ε).unwrap tsE
      = Except.error ("Tried to unwrap Error: " ++ tsE e ++ "\n" ++ st) ∧
    (Res.Err e st : Res α ε).expectErr m tsV = Except.ok e ∧
    (Res.Err e st : Res α ε).unwrapErr tsV = Except.ok e ∧
    (Res.Ok v : Res α ε).expectErr m tsV = Except.error (m ++ ": " ++ tsV v) ∧
    (Res.Ok v : Res α ε).unwrapErr tsV
      = Except.error ("Tried to unwrap Ok value: " ++ tsV v) :=
  ⟨rfl, rfl, rfl, rfl, rfl, rfl, rfl, rfl⟩

/-- C4: short-circuit of the and-chain — on `Ok`, `and` returns the other
result as-is (even when it is `Err`) and `andThen` returns `fn(value)`; on
`Err`, both return the `Err` itself, and since the equations hold for every
`other` and every `fn`, the callback is never consulted. -/
theorem c4_and_chain (α β ε : Type) (v : α) (e : ε) (st : String)
    (other : Res β ε) (f : α → Res β ε) :
    (Res.Ok v : Res α ε).and other = other ∧
    (Res.Ok v : Res α ε).andThen f = f v ∧
    (Res.Err e st : Res α ε).and other = (Res.Err e st : Res β ε) ∧
    (Res.Err e st : Res α ε).andThen f = (Res.Err e st : Res β ε) :=
  ⟨rfl, rfl, rfl, rfl⟩

/-- C5: map laws — `Ok(v).map(id)` equals `Ok(v)`; `Err(e).map(f)` returns the
`Err` container itself unchanged, error and trace untouched, for every `f`
(hence `f` is never consulted); dually `Ok(v).mapErr(f)` returns self
unchanged. -/
theorem c5_map_laws (α β ε η : Type) (v : α) (e : ε) (st trNew : String)
    (f : α → β) (g : ε → η) :
    (Res.Ok v : Res α ε).map id = (Res.Ok v : Res α ε) ∧
    (Res.Err e st : Res α ε).map f = (Res.Err e st : Res β ε) ∧
    (Res.Ok v : Res α ε).mapErr g trNew = (Res.Ok v : Res α η) :=
  ⟨rfl, rfl, rfl⟩

/-- C7: variant predicates — `Ok(v).isOk`, `Err(e).isErr` are true and the
opposite predicates false; `isOkAnd p` equals `p(value)` on `Ok` and is false
on `Err` for every `p` (hence `p` is never consulted), and symmetrically for
`isErrAnd`. -/
theorem c7_variant_predicates (α ε : Type) (v : α) (e : ε) (st : String)
    (p : α → Bool) (q : ε → Bool) :
    (Res.Ok v : Res α ε).isOk = true ∧
    (Res.Ok v : Res α ε).isErr = false ∧
    (Res.Err e st : Res α ε).isErr = true ∧
    (Res.Err e st : Res α ε).isOk = false ∧
    (Res.Ok v : Res α ε).isOkAnd p = p v ∧
    (Res.Err e st : Res α ε).isOkAnd p = false ∧
    (Res.Err e st : Res α ε).isErrAnd q = q e ∧
    (Res.Ok v : Res α ε).isErrAnd q = false :=
  ⟨rfl, rfl, rfl, rfl, rfl, rfl, rfl, rfl⟩

/-- C8: Option unwrap family — `Some(v).unwrap()`, `Some(v).expect(m)` and
`Some(v).unwrapOr(d)` all return `v`; on `None`, `unwrap()` throws the fixed
message "Tried to unwrap None", `expect(m)` throws with message exactly `m`,
and `unwrapOr(d)` returns the fallback `d` verbatim without throwing. -/
theorem c8_option_unwrap_family (α : Type) (v d : α) (m : String) :
    (Opt.Some v : Opt α).unwrap = Except.ok v ∧
    (Opt.Some v : Opt α).expect m = Except.ok v ∧
    (Opt.Some v : Opt α).unwrapOr d = v ∧
    (Opt.None : Opt α).unwrap = Except.error "Tried to unwrap None" ∧
    (Opt.None : Opt α).expect m = Except.error m ∧
    (Opt.None : Opt α).unwrapOr d = d :=
  ⟨rfl, rfl, rfl, rfl, rfl, rfl⟩

/-- C9: the two coexisting Result revisions differ exactly as stated — in the
earlier revision `ok()`/`err()` return `Some` of the wrapped value or the
shared absent marker `None`, while in the later revision they return the raw
value or `undefined`. -/
theorem c9_two_revisions (α ε : Type) (v : α) (e : ε) (st : String) :
    (Res.Ok v : Res α ε).okEarlier = Opt.Some v ∧
    (Res.Err e st : Res α ε).okEarlier = Opt.None ∧
    (Res.Err e st : Res α ε).errEarlier = Opt.Some e ∧
    (Res.Ok v : Res α ε).errEarlier = Opt.None ∧
    (Res.Ok v : Res α ε).ok = UOr.val v ∧
    (Res.Err e st : Res α ε).ok = UOr.undefv ∧
    (Res.Err e st : Res α ε).err = UOr.val e ∧
    (Res.Ok v : Res α ε).err = UOr.undefv :=
  ⟨rfl, rfl, rfl, rfl, rfl, rfl, rfl, rfl⟩

/-- C10: the catch boundary of the adapter does not cover the error-transform
step — when the wrapped function throws and the supplied `errorTransform`
itself throws on the caught value, the call raises the transform's failure
instead of returning any Result, because the transform runs inside the catch
handler, outside the try block. -/
theorem c10_transform_outside_try :
    wrapInResult (fun _ => Except.error (JSVal.str "inner failure"))
        (some (fun _ => Except.error (JSVal.str "transform failure"))) "tr" []
      = Except.error (JSVal.str "transform failure") :=
  rfl

/-- C2 (amended): the callable returned by `wrapInResult` yields `Ok(fn(args))`
when `fn` returns normally; when `fn` throws, it yields
`Err(errorTransform(caughtFailure))` if a (normally returning) transform is
supplied; otherwise, if the caught failure is an `Error` instance it yields
`Err` of that instance's message, and any other caught value — even one that
carries a `message` field — is yielded unchanged as `Err`; in particular a
bare thrown string "boom" yields `Err("boom")`. -/
theorem c2_wrap_amended (g : List JSVal → JSVal) (t : JSVal)
    (et0 : JSVal → JSVal) (etm : Option (JSVal → Except JSVal JSVal))
    (idn : Nat) (msg tr : String) (args : List JSVal) :
    wrapInResult (fun a => Except.ok (g a)) etm tr args = Except.ok (Res.Ok (g args)) ∧
    wrapInResult (fun _ => Except.error t) (some (fun u => Except.ok (et0 u))) tr args
      = Except.ok (Res.Err (et0 t) tr) ∧
    wrapInResult (fun _ => Except.error (JSVal.errObj idn msg)) none tr args
      = Except.ok (Res.Err (JSVal.str msg) tr) ∧
    (t.isErrorInstance = false →
      wrapInResult (fun _ => Except.error t) none tr args
        = Except.ok (Res.Err t tr)) := by
  refine ⟨rfl, rfl, rfl, fun h => ?_⟩
  simp [wrapInResult, h]

/-- C2 witness: the amended theorem applied to the bare thrown string "boom"
with no transform — exactly the scenario named by the claim. -/
theorem c2_wrap_amended_witness :
    JSVal.isErrorInstance (JSVal.str "boom") = false ∧
    wrapInResult (fun _ => Except.error (JSVal.str "boom")) none "tr" []
      = Except.ok (Res.Err (JSVal.str "boom") "tr") :=
  ⟨rfl,
    (c2_wrap_amended (fun _ => JSVal.undefv) (JSVal.str "boom") (fun u => u)
        none 0 "" "tr" []).2.2.2 rfl⟩

/-- C2 counterexample: the claim as stated is false — a caught plain object
that carries a `message` field is not converted to that message; the code only
consults the message of `instanceof Error` values, and yields the object
unchanged. -/
theorem c2_wrap_counterexample :
    messageFieldOf (JSVal.obj 0 [("message", JSVal.str "boom")])
      = some (JSVal.str "boom") ∧
    wrapInResult (fun _ => Except.error (JSVal.obj 0 [("message", JSVal.str "boom")]))
        none "tr" []
      = Except.ok (Res.Err (JSVal.obj 0 [("message", JSVal.str "boom")]) "tr") ∧
    Except.ok (Res.Err (JSVal.obj 0 [("message", JSVal.str "boom")]) "tr")
      ≠ (Except.ok (Res.Err (JSVal.str "boom") "tr") : Except JSVal (Res JSVal JSVal)) := by
  refine ⟨rfl, rfl, ?_⟩
  simp

/-- C3 (amended): iterating an `Ok` yields the wrapped value's elements when
the value is a non-null object carrying the iteration protocol (an array);
iterating an `Ok` wrapping any other value yields nothing — including a
primitive string, although strings are iterable in the language, because the
iterator requires `typeof value === "object"`; iterating an `Err` always
yields nothing; every sequence is a finite list and, the embedding being a
pure function, each iteration restarts afresh. -/
theorem c3_iteration_amended (idn : Nat) (es : List JSVal)
    (fs : List (String × JSVal)) (s m : String) (n : Int) (b : Bool)
    (e st : String) :
    Res.iterate (Res.Ok (JSVal.arr idn es) : Res JSVal String) = es ∧
    Res.iterate (Res.Ok (JSVal.str s) : Res JSVal String) = [] ∧
    Res.iterate (Res.Ok (JSVal.num n) : Res JSVal String) = [] ∧
    Res.iterate (Res.Ok (JSVal.boolv b) : Res JSVal String) = [] ∧
    Res.iterate (Res.Ok JSVal.undefv : Res JSVal String) = [] ∧
    Res.iterate (Res.Ok JSVal.nullv : Res JSVal String) = [] ∧
    Res.iterate (Res.Ok (JSVal.obj idn fs) : Res JSVal String) = [] ∧
    Res.iterate (Res.Ok (JSVal.errObj idn m) : Res JSVal String) = [] ∧
    Res.iterate (Res.Ok (JSVal.fn idn) : Res JSVal String) = [] ∧
    Res.iterate (Res.Err e st : Res JSVal String) = [] := by
  refine ⟨?_, ?_, ?_, ?_, ?_, ?_, ?_, ?_, ?_, rfl⟩ <;>
    simp [Res.iterate, JSVal.typeofStr, JSVal.isNullVal, JSVal.hasSymbolIterator,
      JSVal.iterElems]

/-- C3 counterexample: the claim as stated is false — a string is an iterable
value whose elements are its characters, yet iterating `Ok("ab")` yields
nothing, because the iterator requires `typeof value === "object"` and a
primitive string has `typeof` "string". -/
theorem c3_iteration_counterexample :
    isIterableJS (JSVal.str "ab") = true ∧
    elemsOfIterable (JSVal.str "ab") = [JSVal.str "a", JSVal.str "b"] ∧
    Res.iterate (Res.Ok (JSVal.str "ab") : Res JSVal String) = [] ∧
    ([] : List JSVal) ≠ [JSVal.str "a", JSVal.str "b"] := by
  refine ⟨rfl, rfl, ?_, by simp⟩
  simp [Res.iterate, JSVal.typeofStr, JSVal.isNullVal, JSVal.hasSymbolIterator]

/-- C6: `cloned()` on an `Ok` whose value the deep-copy collaborator can copy
returns a new `Ok` holding a deep structural copy — structurally equal to the
original (equal after erasing identities) and reference-distinct from it (its
root identity differs from the original's) — without warning; when the value
cannot be deep-copied it falls back to the original container and surfaces a
non-fatal diagnostic warning instead of failing; `cloned()` on an `Err`
returns the identical container with the identical error, never cloning it. -/
theorem c6_cloned (v : JSVal) (f : Nat)
    (hcl : cloneable v = true) (hroot : v.rootIdBelow f = true) :
    (Res.cloned (Res.Ok v : Res JSVal String) f = (Res.Ok (refresh f v), false) ∧
      refresh 0 (refresh f v) = refresh 0 v ∧
      (∀ i, v.rootId = some i → JSVal.rootId (refresh f v) ≠ some i)) ∧
    (∀ u : JSVal, cloneable u = false →
      Res.cloned (Res.Ok u : Res JSVal String) f = (Res.Ok u, true)) ∧
    (∀ e st : String, Res.cloned (Res.Err e st : Res JSVal String) f
      = (Res.Err e st, false)) := by
  refine ⟨⟨?_, refresh_refresh 0 f v, ?_⟩, fun u hu => ?_, fun e st => rfl⟩
  · simp [Res.cloned, sclone, hcl]
  · intro i hi
    cases v <;> simp_all [JSVal.rootId, JSVal.rootIdBelow, refresh] <;> omega
  · simp [Res.cloned, sclone, hu]

/-- C6 witness: the theorem applied to `Ok({a: 1})` with fresh identity 1 —
the clone is the structurally equal object under the new identity — and, via
its fallback clause, to an `Ok` wrapping a function, which cannot be cloned. -/
theorem c6_cloned_witness :
    Res.cloned (Res.Ok (JSVal.obj 0 [("a", JSVal.num 1)]) : Res JSVal String) 1
      = (Res.Ok (JSVal.obj 1 [("a", JSVal.num 1)]), false) ∧
    Res.cloned (Res.Ok (JSVal.fn 0) : Res JSVal String) 1
      = (Res.Ok (JSVal.fn 0), true) := by
  have h := c6_cloned (JSVal.obj 0 [("a", JSVal.num 1)]) 1 rfl rfl
  exact ⟨by simpa [refresh, refreshFields] using h.1.1, h.2.1 (JSVal.fn 0) rfl⟩
